import Mathlib

/-!
Shallow embedding of the Orchestrator's rule-based classification engine
(`utils/detectionRules.ts`) and of the bottom-up size aggregation
(`enrichWithSizes` in `App.tsx`), together with theorems settling the
frozen claims about them.

Modelling conventions:
* TypeScript `FileNode` (name, type 'file'|'folder', optional children,
  optional age in days, optional size in KB) becomes an inductive with
  `Option` fields; `children?: FileNode[]` is `Option (List FileNode)`.
* `children?.some(p) ?? false` becomes `optAny children p`.
* A case-insensitive regular expression such as `/invoice/i` that is a
  plain literal is embedded as a substring test of the lowercased name
  against the lowercase pattern; `String.prototype.includes` is the
  case-sensitive substring test `strContains`.
* `x ?? 0` / `x || 0` on an optional number becomes `Option.getD x 0`.
* The polymorphic `reason` field of a folder rule (string or function)
  becomes the sum type `RuleReason`.
-/

/-- Kind of a filesystem entry: `'file' | 'folder'` in the source. -/
inductive NodeType where
  | file
  | folder
deriving DecidableEq, Repr

/-- FileNode from `types.ts`: name, type, optional children, optional age
in days, optional size in KB.  The `category` field of the source interface
is never read by the classification engine and is omitted. -/
inductive FileNode where
  | mk (name : String) (type : NodeType) (children : Option (List FileNode))
       (age : Option Nat) (size : Option Nat)

/-- Accessor for the `name` field. -/
def FileNode.name : FileNode → String
  | .mk n _ _ _ _ => n

/-- Accessor for the `type` field. -/
def FileNode.type : FileNode → NodeType
  | .mk _ t _ _ _ => t

/-- Accessor for the optional `children` field. -/
def FileNode.children : FileNode → Option (List FileNode)
  | .mk _ _ c _ _ => c

/-- Accessor for the optional `age` field (days). -/
def FileNode.age : FileNode → Option Nat
  | .mk _ _ _ a _ => a

/-- Accessor for the optional `size` field (KB). -/
def FileNode.size : FileNode → Option Nat
  | .mk _ _ _ _ s => s

/-- The closed category taxonomy, keys of `FILE_CATEGORIES`.  The audio
category carries a trailing underscore here; it stands for the source's
media-audio key. -/
inductive Category where
  | PROJECT_GIT
  | PROJECT_NODE
  | PROJECT_PYTHON
  | PROJECT_UNITY
  | PROJECT_RUST
  | PROJECT_GO
  | PROJECT_JAVA
  | DOC_PDF
  | DOC_OFFICE
  | DOC_TEXT
  | MEDIA_VIDEO
  | MEDIA_AUDIO_
  | MEDIA_IMAGE
  | ARCHIVE_COMPRESSED
  | SDK_DOTNET
  | CONFIG_DOTFILE
  | TOOL_EXECUTABLE
  | PRIVATE_FINANCIAL
  | PRIVATE_LEGAL
  | PRIVATE_MEDICAL
  | PRIVATE_IDENTITY
  | VACUUM_EMPTY
  | VACUUM_TEMP
  | ARCHIVE_STALE
deriving DecidableEq, Repr

/-- Target path and priority of a category (`CategoryConfig`). -/
structure CategoryConfig where
  target : String
  priority : Nat
deriving DecidableEq, Repr

/-- The static `FILE_CATEGORIES` table. -/
def FILE_CATEGORIES : Category → CategoryConfig
  | .PROJECT_GIT => ⟨"01_Build/Projects", 10⟩
  | .PROJECT_NODE => ⟨"01_Build/Web", 10⟩
  | .PROJECT_PYTHON => ⟨"01_Build/Data", 10⟩
  | .PROJECT_UNITY => ⟨"01_Build/Interactive", 10⟩
  | .PROJECT_RUST => ⟨"01_Build/Systems", 10⟩
  | .PROJECT_GO => ⟨"01_Build/Systems", 10⟩
  | .PROJECT_JAVA => ⟨"01_Build/Enterprise", 10⟩
  | .DOC_PDF => ⟨"03_Library/Documents", 5⟩
  | .DOC_OFFICE => ⟨"03_Library/Documents", 5⟩
  | .DOC_TEXT => ⟨"03_Library/Notes", 5⟩
  | .MEDIA_VIDEO => ⟨"05_Stage/Media/Videos", 5⟩
  | .MEDIA_AUDIO_ => ⟨"05_Stage/Media/Audio", 5⟩
  | .MEDIA_IMAGE => ⟨"05_Stage/Media/Images", 5⟩
  | .ARCHIVE_COMPRESSED => ⟨"00_Inbox/Archives", 5⟩
  | .SDK_DOTNET => ⟨"02_Studio/SDKs", 8⟩
  | .CONFIG_DOTFILE => ⟨"02_Studio/Config", 8⟩
  | .TOOL_EXECUTABLE => ⟨"02_Studio/Tools", 7⟩
  | .PRIVATE_FINANCIAL => ⟨"04_Private/Financial", 9⟩
  | .PRIVATE_LEGAL => ⟨"04_Private/Legal", 9⟩
  | .PRIVATE_MEDICAL => ⟨"04_Private/Medical", 9⟩
  | .PRIVATE_IDENTITY => ⟨"04_Private/Identity", 9⟩
  | .VACUUM_EMPTY => ⟨"VACUUM", 3⟩
  | .VACUUM_TEMP => ⟨"VACUUM", 6⟩
  | .ARCHIVE_STALE => ⟨"99_Archives/2024", 4⟩

/-- DetectionResult: category plus its config plus a reason string. -/
structure DetectionResult where
  category : Category
  target : String
  priority : Nat
  reason : String
deriving DecidableEq, Repr

/-- Substring containment on character lists (semantics of
`String.prototype.includes` restricted to the usages of the source). -/
def charsContain (s pat : List Char) : Bool :=
  match s with
  | [] => pat.isEmpty
  | _ :: t => pat.isPrefixOf s || charsContain t pat

/-- Case-sensitive substring test, `s.includes(pat)` in the source. -/
def strContains (s pat : String) : Bool :=
  charsContain s.data pat.data

/-- Prefix test, `s.startsWith(pre)` in the source. -/
def strStartsWith (s pre : String) : Bool :=
  pre.data.isPrefixOf s.data

/-- ASCII lowercasing of a string (`toLowerCase` on the names the
source handles). -/
def lowerStr (s : String) : String :=
  ⟨s.data.map Char.toLower⟩

/-- Test of a case-insensitive literal regular expression `/pat/i` against
a name: the lowercased name contains the (lowercase) pattern. -/
def regexTestI (pat name : String) : Bool :=
  strContains (lowerStr name) pat

/-- The `children?.some(p) ?? false` idiom of the detector checks. -/
def optAny (children : Option (List FileNode)) (p : FileNode → Bool) : Bool :=
  match children with
  | none => false
  | some l => l.any p

/-- A project detector: human name, check over the node and its direct
children, category, static reason. -/
structure ProjectDetector where
  name : String
  check : FileNode → Option (List FileNode) → Bool
  category : Category
  reason : String

/-- Check of the Git-repository detector. -/
def gitCheck (item : FileNode) (children : Option (List FileNode)) : Bool :=
  if item.type = NodeType.folder then
    optAny children (fun c => c.name == ".git")
  else false

/-- Check of the Node.js-project detector. -/
def nodeCheck (item : FileNode) (children : Option (List FileNode)) : Bool :=
  if item.type = NodeType.folder then
    optAny children (fun c => c.name == "package.json")
  else false

/-- Check of the Python-project detector. -/
def pythonCheck (item : FileNode) (children : Option (List FileNode)) : Bool :=
  if item.type = NodeType.folder then
    optAny children (fun c =>
      (["requirements.txt", "setup.py", "pyproject.toml", "Pipfile"] : List String).contains c.name)
  else false

/-- Check of the Unity-project detector: a child named "Assets" that is a
folder, and a child named "ProjectSettings" (its type is not inspected). -/
def unityCheck (item : FileNode) (children : Option (List FileNode)) : Bool :=
  if item.type = NodeType.folder then
    (optAny children (fun c => c.name == "Assets" && c.type == NodeType.folder)
      && optAny children (fun c => c.name == "ProjectSettings"))
  else false

/-- Check of the Rust-project detector. -/
def rustCheck (item : FileNode) (children : Option (List FileNode)) : Bool :=
  if item.type = NodeType.folder then
    optAny children (fun c => c.name == "Cargo.toml")
  else false

/-- Check of the Go-project detector. -/
def goCheck (item : FileNode) (children : Option (List FileNode)) : Bool :=
  if item.type = NodeType.folder then
    optAny children (fun c => c.name == "go.mod")
  else false

/-- Check of the Java/Maven-project detector. -/
def javaCheck (item : FileNode) (children : Option (List FileNode)) : Bool :=
  if item.type = NodeType.folder then
    optAny children (fun c => c.name == "pom.xml" || c.name == "build.gradle")
  else false

/-- The ordered PROJECT_DETECTORS list. -/
def PROJECT_DETECTORS : List ProjectDetector :=
  [⟨"Git Repository", gitCheck, .PROJECT_GIT, "Git Repository"⟩,
   ⟨"Node.js Project", nodeCheck, .PROJECT_NODE, "Node.js Project"⟩,
   ⟨"Python Project", pythonCheck, .PROJECT_PYTHON, "Python Project"⟩,
   ⟨"Unity Project", unityCheck, .PROJECT_UNITY, "Unity Project"⟩,
   ⟨"Rust Project", rustCheck, .PROJECT_RUST, "Rust Project"⟩,
   ⟨"Go Project", goCheck, .PROJECT_GO, "Go Project"⟩,
   ⟨"Java/Maven Project", javaCheck, .PROJECT_JAVA, "Java Project"⟩]

/-- An extension rule: category and reason. -/
structure ExtensionRule where
  category : Category
  reason : String
deriving DecidableEq, Repr

/-- The EXTENSION_RULES lookup table, keyed by lowercased extension
including the leading dot. -/
def EXTENSION_RULES : String → Option ExtensionRule
  | ".pdf" => some ⟨.DOC_PDF, "PDF Document"⟩
  | ".docx" => some ⟨.DOC_OFFICE, "Word Document"⟩
  | ".doc" => some ⟨.DOC_OFFICE, "Word Document"⟩
  | ".xlsx" => some ⟨.DOC_OFFICE, "Excel Spreadsheet"⟩
  | ".xls" => some ⟨.DOC_OFFICE, "Excel Spreadsheet"⟩
  | ".pptx" => some ⟨.DOC_OFFICE, "PowerPoint"⟩
  | ".txt" => some ⟨.DOC_TEXT, "Text File"⟩
  | ".md" => some ⟨.DOC_TEXT, "Markdown"⟩
  | ".mp4" => some ⟨.MEDIA_VIDEO, "Video File"⟩
  | ".avi" => some ⟨.MEDIA_VIDEO, "Video File"⟩
  | ".mkv" => some ⟨.MEDIA_VIDEO, "Video File"⟩
  | ".mov" => some ⟨.MEDIA_VIDEO, "Video File"⟩
  | ".wmv" => some ⟨.MEDIA_VIDEO, "Video File"⟩
  | ".mp3" => some ⟨.MEDIA_AUDIO_, "Audio File"⟩
  | ".wav" => some ⟨.MEDIA_AUDIO_, "Audio File"⟩
  | ".flac" => some ⟨.MEDIA_AUDIO_, "Audio File"⟩
  | ".m4a" => some ⟨.MEDIA_AUDIO_, "Audio File"⟩
  | ".ogg" => some ⟨.MEDIA_AUDIO_, "Audio File"⟩
  | ".jpg" => some ⟨.MEDIA_IMAGE, "Image File"⟩
  | ".jpeg" => some ⟨.MEDIA_IMAGE, "Image File"⟩
  | ".png" => some ⟨.MEDIA_IMAGE, "Image File"⟩
  | ".gif" => some ⟨.MEDIA_IMAGE, "Image File"⟩
  | ".bmp" => some ⟨.MEDIA_IMAGE, "Image File"⟩
  | ".svg" => some ⟨.MEDIA_IMAGE, "Vector Image"⟩
  | ".webp" => some ⟨.MEDIA_IMAGE, "Image File"⟩
  | ".zip" => some ⟨.ARCHIVE_COMPRESSED, "Archive"⟩
  | ".rar" => some ⟨.ARCHIVE_COMPRESSED, "Archive"⟩
  | ".7z" => some ⟨.ARCHIVE_COMPRESSED, "Archive"⟩
  | ".tar" => some ⟨.ARCHIVE_COMPRESSED, "Archive"⟩
  | ".gz" => some ⟨.ARCHIVE_COMPRESSED, "Archive"⟩
  | ".exe" => some ⟨.TOOL_EXECUTABLE, "Executable"⟩
  | ".msi" => some ⟨.TOOL_EXECUTABLE, "Installer"⟩
  | ".app" => some ⟨.TOOL_EXECUTABLE, "Application"⟩
  | ".dmg" => some ⟨.TOOL_EXECUTABLE, "Disk Image"⟩
  | _ => none

/-- A name pattern: lowercase literal of a case-insensitive regular
expression, category, reason. -/
structure NamePattern where
  pattern : String
  category : Category
  reason : String
deriving DecidableEq, Repr

/-- The ordered NAME_PATTERNS list. -/
def NAME_PATTERNS : List NamePattern :=
  [⟨"invoice", .PRIVATE_FINANCIAL, "Financial Document"⟩,
   ⟨"receipt", .PRIVATE_FINANCIAL, "Financial Document"⟩,
   ⟨"tax", .PRIVATE_FINANCIAL, "Tax Document"⟩,
   ⟨"nda", .PRIVATE_LEGAL, "Legal Document"⟩,
   ⟨"contract", .PRIVATE_LEGAL, "Legal Document"⟩,
   ⟨"blood", .PRIVATE_MEDICAL, "Medical Record"⟩,
   ⟨"medical", .PRIVATE_MEDICAL, "Medical Record"⟩,
   ⟨"passport", .PRIVATE_IDENTITY, "ID Document"⟩,
   ⟨"screenshot", .MEDIA_IMAGE, "Screenshot"⟩,
   ⟨"export", .DOC_OFFICE, "Export"⟩,
   ⟨"cheatsheet", .DOC_TEXT, "Reference"⟩,
   ⟨"book", .DOC_PDF, "Book"⟩]

/-- Reason of a folder rule: a static string or a function of the node. -/
inductive RuleReason where
  | str (s : String)
  | fn (f : FileNode → String)

/-- A folder rule: check over the node, category, reason. -/
structure FolderRule where
  check : FileNode → Bool
  category : Category
  reason : RuleReason

/-- Check of the empty-folder rule: `(item.children?.length ?? 0) === 0`. -/
def emptyCheck (item : FileNode) : Bool :=
  item.type = NodeType.folder
    && (match item.children with | none => 0 | some l => l.length) == 0

/-- Check of the stale temp-folder rule: name contains "temp"
(case-sensitive) and age over 30 days. -/
def tempCheck (item : FileNode) : Bool :=
  item.type = NodeType.folder && strContains item.name "temp"
    && decide (30 < item.age.getD 0)

/-- Check of the general staleness rule: age over 365 days and a name not
starting with a dot. -/
def staleCheck (item : FileNode) : Bool :=
  item.type = NodeType.folder && decide (365 < item.age.getD 0)
    && !(strStartsWith item.name ".")

/-- Computed reason of the staleness rule.  The rule only fires when the
age is present (an absent age defaults to 0 in the check), so the absent
case of the template never shows. -/
def staleReason (item : FileNode) : String :=
  "Inactive (" ++ toString (item.age.getD 0) ++ "d)"

/-- Check of the .NET-SDK rule: exact name match on ".dotnet". -/
def dotnetCheck (item : FileNode) : Bool :=
  item.name == ".dotnet"

/-- Check of the generic dotfile-folder rule. -/
def dotfileCheck (item : FileNode) : Bool :=
  strStartsWith item.name "." && item.type == NodeType.folder

/-- The ordered FOLDER_RULES list. -/
def FOLDER_RULES : List FolderRule :=
  [⟨emptyCheck, .VACUUM_EMPTY, .str "Empty Folder"⟩,
   ⟨tempCheck, .VACUUM_TEMP, .str "Old Temp Folder"⟩,
   ⟨staleCheck, .ARCHIVE_STALE, .fn staleReason⟩,
   ⟨dotnetCheck, .SDK_DOTNET, .str ".NET SDK"⟩,
   ⟨dotfileCheck, .CONFIG_DOTFILE, .str "Config Folder"⟩]

/-- Build a DetectionResult by spreading the category's config, as
`{category, ...FILE_CATEGORIES[c], reason}` does. -/
def mkResult (c : Category) (reason : String) : DetectionResult :=
  ⟨c, (FILE_CATEGORIES c).target, (FILE_CATEGORIES c).priority, reason⟩

/-- Resolve a folder rule's reason against the node
(`typeof rule.reason === 'function' ? rule.reason(item) : rule.reason`). -/
def applyReason : RuleReason → FileNode → String
  | .str s, _ => s
  | .fn f, item => f item

/-- Characters of the name from its last "." to the end, `none` when the
name holds no "." (mirrors `lastIndexOf('.')` plus `substring`). -/
def lastDotSuffix : List Char → Option (List Char)
  | [] => none
  | c :: t =>
    match lastDotSuffix t with
    | some r => some r
    | none => if c == '.' then some (c :: t) else none

/-- Extension of a file name: substring from the final "." inclusive,
before lowercasing. -/
def extOf (name : String) : Option String :=
  (lastDotSuffix name.data).map fun l => ⟨l⟩

/-- Main detection function `detectFileCategory`: project detectors, then
folder rules (folders only), then name patterns, then extension rules
(files only); first match wins, `none` when nothing matches. -/
def detectFileCategory (item : FileNode) (children : Option (List FileNode)) :
    Option DetectionResult :=
  match PROJECT_DETECTORS.find? (fun d => d.check item children) with
  | some d => some (mkResult d.category d.reason)
  | none =>
    match (if item.type = NodeType.folder
           then FOLDER_RULES.find? (fun r => r.check item)
           else none) with
    | some r => some (mkResult r.category (applyReason r.reason item))
    | none =>
      match NAME_PATTERNS.find? (fun p => regexTestI p.pattern item.name) with
      | some p => some (mkResult p.category p.reason)
      | none =>
        if item.type = NodeType.file then
          match extOf item.name with
          | some ext =>
            match EXTENSION_RULES (lowerStr ext) with
            | some er => some (mkResult er.category er.reason)
            | none => none
          | none => none
        else none

/-- Sum of the children's sizes, `reduce((acc, child) => acc + (child.size || 0), 0)`. -/
def sumSizes (l : List FileNode) : Nat :=
  l.foldl (fun acc c => acc + c.size.getD 0) 0

mutual

/-- Bottom-up size enrichment `enrichWithSizes` of `App.tsx`: children are
enriched first; a folder's size becomes the sum of its enriched children's
sizes, a file keeps `size || 0`; an absent children collection becomes the
empty list. -/
def enrichWithSizes : FileNode → FileNode
  | .mk n t ch a s =>
    let ec : List FileNode :=
      match ch with
      | some l => enrichList l
      | none => []
    let sz : Nat := if t = NodeType.folder then sumSizes ec else s.getD 0
    .mk n t (some ec) a (some sz)

/-- The `children?.map(traverse)` step of `enrichWithSizes`. -/
def enrichList : List FileNode → List FileNode
  | [] => []
  | x :: xs => enrichWithSizes x :: enrichList xs

end

mutual

/-- Helper: one application of `enrichWithSizes` is a fixed point of a
second one. -/
theorem enrich_node_stable : ∀ nd : FileNode,
    enrichWithSizes (enrichWithSizes nd) = enrichWithSizes nd
  | .mk n t ch a s => by
    cases ch with
    | none =>
      cases t <;> simp [enrichWithSizes, enrichList]
    | some l =>
      have h := enrich_list_stable l
      cases t <;> simp [enrichWithSizes, h]

/-- Helper: `enrichList` is idempotent, mutually with `enrich_node_stable`. -/
theorem enrich_list_stable : ∀ l : List FileNode,
    enrichList (enrichList l) = enrichList l
  | [] => by simp [enrichList]
  | x :: xs => by
    have h1 := enrich_node_stable x
    have h2 := enrich_list_stable xs
    simp [enrichList, h1, h2]

end

/-- Helper: when every detector check is false, the detector stage finds
nothing. -/
theorem noProject_find (item : FileNode) (carg : Option (List FileNode))
    (h : ∀ d ∈ PROJECT_DETECTORS, d.check item carg = false) :
    PROJECT_DETECTORS.find? (fun d => d.check item carg) = none :=
  List.find?_eq_none.mpr (fun d hd => by simp [h d hd])

/-- Helper: a FILE node never matches a project detector. -/
theorem file_noProject (item : FileNode) (carg : Option (List FileNode))
    (h : item.type = NodeType.file) :
    PROJECT_DETECTORS.find? (fun d => d.check item carg) = none := by
  refine noProject_find item carg (fun d hd => ?_)
  simp only [PROJECT_DETECTORS, List.mem_cons, List.not_mem_nil, or_false] at hd
  rcases hd with rfl | rfl | rfl | rfl | rfl | rfl | rfl <;>
    simp [gitCheck, nodeCheck, pythonCheck, unityCheck, rustCheck, goCheck, javaCheck, h]

/-- Helper: the node's children field read absent is read as the empty
list by the whole engine. -/
theorem detect_node_children_absent (n : String) (t : NodeType)
    (a s : Option Nat) (carg : Option (List FileNode)) :
    detectFileCategory (FileNode.mk n t none a s) carg
      = detectFileCategory (FileNode.mk n t (some []) a s) carg := by
  cases t <;>
  simp [detectFileCategory, PROJECT_DETECTORS, List.find?, gitCheck, nodeCheck,
    pythonCheck, unityCheck, rustCheck, goCheck, javaCheck, FOLDER_RULES, emptyCheck,
    tempCheck, staleCheck, dotnetCheck, dotfileCheck, staleReason, FileNode.type,
    FileNode.name, FileNode.children, FileNode.age, applyReason]

/-- Helper: an absent children argument behaves as the empty list. -/
theorem detect_children_arg_absent (item : FileNode) :
    detectFileCategory item none = detectFileCategory item (some []) := by
  simp [detectFileCategory, PROJECT_DETECTORS, List.find?, gitCheck, nodeCheck,
    pythonCheck, unityCheck, rustCheck, goCheck, javaCheck, optAny]

/-- C1: classify is a total function into `Option DetectionResult` (none or
exactly one result, never an error), and an absent children collection —
either the node's own field or the childrenOfNode argument — behaves
exactly as zero children. -/
theorem claim_C1_classify_total_absent_children_as_empty :
    ∀ (n : String) (t : NodeType) (a s : Option Nat) (item : FileNode)
      (carg : Option (List FileNode)),
    detectFileCategory (FileNode.mk n t none a s) carg
      = detectFileCategory (FileNode.mk n t (some []) a s) carg
    ∧ detectFileCategory item none = detectFileCategory item (some []) :=
  fun n t a s item carg =>
    ⟨detect_node_children_absent n t a s carg, detect_children_arg_absent item⟩

/-- C2: a folder with zero children that no project detector matches is
classified by the empty-folder rule, whatever its name or age. -/
theorem claim_C2_empty_folder_rule_first (name : String)
    (ch : Option (List FileNode)) (age size : Option Nat)
    (carg : Option (List FileNode))
    (hch : ch = none ∨ ch = some [])
    (hp : ∀ d ∈ PROJECT_DETECTORS,
      d.check (FileNode.mk name NodeType.folder ch age size) carg = false) :
    detectFileCategory (FileNode.mk name NodeType.folder ch age size) carg
      = some ⟨Category.VACUUM_EMPTY, "VACUUM", 3, "Empty Folder"⟩ := by
  have hfind := noProject_find _ _ hp
  rcases hch with rfl | rfl <;>
    simp [detectFileCategory, hfind, FOLDER_RULES, emptyCheck, FileNode.type,
      FileNode.children, applyReason, mkResult, FILE_CATEGORIES]

/-- C2 witness: the empty ".dotnet" folder and the empty 400-day-old
"OldProj" folder are both classified "Empty Folder". -/
theorem claim_C2_empty_folder_rule_first_witness :
    detectFileCategory (FileNode.mk ".dotnet" NodeType.folder none none none) none
      = some ⟨Category.VACUUM_EMPTY, "VACUUM", 3, "Empty Folder"⟩
    ∧ detectFileCategory
        (FileNode.mk "OldProj" NodeType.folder (some []) (some 400) none) (some [])
      = some ⟨Category.VACUUM_EMPTY, "VACUUM", 3, "Empty Folder"⟩ :=
  ⟨claim_C2_empty_folder_rule_first ".dotnet" none none none none
      (Or.inl rfl) (by decide),
   claim_C2_empty_folder_rule_first "OldProj" (some []) (some 400) none (some [])
      (Or.inr rfl) (by decide)⟩

/-- C3: the file "Annual_Tax_Invoice_2024.pdf" is classified financial by
the name-pattern stage (not PDF by extension), and the winning pattern is
"invoice" — the first financial pattern of the list — so the reason is
"Financial Document", not "Tax Document". -/
theorem claim_C3_tax_invoice_name_beats_extension :
    detectFileCategory
        (FileNode.mk "Annual_Tax_Invoice_2024.pdf" NodeType.file none none none) none
      = some ⟨Category.PRIVATE_FINANCIAL, "04_Private/Financial", 9,
          "Financial Document"⟩
    ∧ NAME_PATTERNS.find?
        (fun p => regexTestI p.pattern "Annual_Tax_Invoice_2024.pdf")
      = some ⟨"invoice", Category.PRIVATE_FINANCIAL, "Financial Document"⟩ := by
  constructor <;> decide

/-- C4 counterexample: the Unity detector accepts a folder whose
"ProjectSettings" child is a FILE — the claimed "itself a directory"
condition on that child is not checked by the code, so the claimed
equivalence fails at this input. -/
theorem claim_C4_unity_counterexample :
    unityCheck (FileNode.mk "UnityProj" NodeType.folder none none none)
      (some [FileNode.mk "Assets" NodeType.folder none none none,
             FileNode.mk "ProjectSettings" NodeType.file none none none]) = true
    ∧ ([FileNode.mk "Assets" NodeType.folder none none none,
        FileNode.mk "ProjectSettings" NodeType.file none none none].all
        (fun c => !(c.name == "ProjectSettings" && c.type == NodeType.folder))) = true := by
  constructor <;> decide

/-- C4 amended: the Unity detector matches iff the direct children hold a
child named "Assets" that is itself a folder AND a child named
"ProjectSettings" of any type (the code never inspects the type of the
"ProjectSettings" child). -/
theorem claim_C4_unity_detector_amended (item : FileNode)
    (children : Option (List FileNode)) :
    unityCheck item children = true ↔
      (item.type = NodeType.folder
        ∧ (∃ c ∈ children.getD [], c.name = "Assets" ∧ c.type = NodeType.folder)
        ∧ ∃ c ∈ children.getD [], c.name = "ProjectSettings") := by
  cases children with
  | none =>
    simp [unityCheck, optAny]
  | some l =>
    by_cases h : item.type = NodeType.folder <;>
      simp [unityCheck, optAny, h, List.any_eq_true, and_assoc]

/-- C5: a non-empty folder that no detector matches, whose name avoids
"temp" and a leading dot, is classified stale-archival exactly above 365
days, with the age interpolated into the reason; at exactly 365 days the
staleness rule does not match. -/
theorem claim_C5_staleness_threshold_365 (name : String) (c0 : FileNode)
    (cs : List FileNode) (age : Nat) (size : Option Nat)
    (carg : Option (List FileNode))
    (hp : ∀ d ∈ PROJECT_DETECTORS,
      d.check (FileNode.mk name NodeType.folder (some (c0 :: cs)) (some age) size)
        carg = false)
    (htemp : strContains name "temp" = false)
    (hdot : strStartsWith name "." = false) :
    (365 < age →
      detectFileCategory
          (FileNode.mk name NodeType.folder (some (c0 :: cs)) (some age) size) carg
        = some ⟨Category.ARCHIVE_STALE, "99_Archives/2024", 4,
            "Inactive (" ++ toString age ++ "d)"⟩)
    ∧ staleCheck
        (FileNode.mk name NodeType.folder (some (c0 :: cs)) (some 365) size)
      = false := by
  constructor
  · intro hage
    have hfind := noProject_find _ _ hp
    unfold detectFileCategory
    rw [hfind]
    simp [FOLDER_RULES, List.find?, emptyCheck, tempCheck, staleCheck, FileNode.type,
      FileNode.children, FileNode.age, FileNode.name, htemp, hdot, hage, applyReason,
      staleReason, mkResult, FILE_CATEGORIES]
  · simp [staleCheck, FileNode.type, FileNode.age]

/-- C5 witness: a 400-day-old non-empty folder "OldProj" is classified
"Inactive (400d)" stale-archival, and the staleness check refuses 365. -/
theorem claim_C5_staleness_threshold_365_witness :
    (365 < 400 →
      detectFileCategory
          (FileNode.mk "OldProj" NodeType.folder
            (some [FileNode.mk "notes.txt" NodeType.file none none none])
            (some 400) none) none
        = some ⟨Category.ARCHIVE_STALE, "99_Archives/2024", 4,
            "Inactive (" ++ toString 400 ++ "d)"⟩)
    ∧ staleCheck
        (FileNode.mk "OldProj" NodeType.folder
          (some [FileNode.mk "notes.txt" NodeType.file none none none])
          (some 365) none)
      = false :=
  claim_C5_staleness_threshold_365 "OldProj"
    (FileNode.mk "notes.txt" NodeType.file none none none) [] 400 none none
    (by decide) (by decide) (by decide)

/-- C6: the non-empty folder "my-temp-build" that no detector matches is
classified "Old Temp Folder" at 45 days and entirely unclassified at 10
days. -/
theorem claim_C6_temp_folder_age_gate (c0 : FileNode) (cs : List FileNode)
    (size : Option Nat) (carg : Option (List FileNode))
    (hp45 : ∀ d ∈ PROJECT_DETECTORS,
      d.check (FileNode.mk "my-temp-build" NodeType.folder (some (c0 :: cs))
        (some 45) size) carg = false)
    (hp10 : ∀ d ∈ PROJECT_DETECTORS,
      d.check (FileNode.mk "my-temp-build" NodeType.folder (some (c0 :: cs))
        (some 10) size) carg = false) :
    detectFileCategory
        (FileNode.mk "my-temp-build" NodeType.folder (some (c0 :: cs)) (some 45) size)
        carg
      = some ⟨Category.VACUUM_TEMP, "VACUUM", 6, "Old Temp Folder"⟩
    ∧ detectFileCategory
        (FileNode.mk "my-temp-build" NodeType.folder (some (c0 :: cs)) (some 10) size)
        carg
      = none := by
  have htemp : strContains "my-temp-build" "temp" = true := by decide
  constructor
  · have hfind := noProject_find _ _ hp45
    unfold detectFileCategory
    rw [hfind]
    simp [FOLDER_RULES, List.find?, emptyCheck, tempCheck, FileNode.type,
      FileNode.children, FileNode.age, FileNode.name, htemp, applyReason, mkResult,
      FILE_CATEGORIES]
  · have hfind := noProject_find _ _ hp10
    have hdn : ("my-temp-build" == ".dotnet") = false := by decide
    have hsw : strStartsWith "my-temp-build" "." = false := by decide
    have hnp : ∀ p ∈ NAME_PATTERNS, regexTestI p.pattern "my-temp-build" = false := by
      decide
    have hfnp : NAME_PATTERNS.find?
        (fun p => regexTestI p.pattern "my-temp-build") = none :=
      List.find?_eq_none.mpr (fun p hp => by simp [hnp p hp])
    unfold detectFileCategory
    rw [hfind]
    simp only [FileNode.name, FileNode.type, FileNode.children, FileNode.age]
    rw [hfnp]
    simp [FOLDER_RULES, List.find?, emptyCheck, tempCheck, staleCheck, dotnetCheck,
      dotfileCheck, FileNode.type, FileNode.children, FileNode.age, FileNode.name,
      htemp, hdn, hsw]

/-- C6 witness: with a single generic child the two classifications above
hold concretely. -/
theorem claim_C6_temp_folder_age_gate_witness :
    detectFileCategory
        (FileNode.mk "my-temp-build" NodeType.folder
          (some [FileNode.mk "data.bin" NodeType.file none none none]) (some 45) none)
        none
      = some ⟨Category.VACUUM_TEMP, "VACUUM", 6, "Old Temp Folder"⟩
    ∧ detectFileCategory
        (FileNode.mk "my-temp-build" NodeType.folder
          (some [FileNode.mk "data.bin" NodeType.file none none none]) (some 10) none)
        none
      = none :=
  claim_C6_temp_folder_age_gate
    (FileNode.mk "data.bin" NodeType.file none none none) [] none none
    (by decide) (by decide)

/-- Helper: `find?` only depends on the predicate's values on the list. -/
theorem find?_ext {α : Type} (p q : α → Bool) (l : List α)
    (h : ∀ x ∈ l, p x = q x) : l.find? p = l.find? q := by
  induction l with
  | nil => rfl
  | cons x xs ih =>
    have hx := h x (List.mem_cons_self x xs)
    have ht := ih (fun y hy => h y (List.mem_cons_of_mem x hy))
    simp [List.find?, hx, ht]

/-- C7: a folder with an absent age classifies exactly as a folder of age
zero, and such a folder is never classified stale-temp or stale-archival,
because the rule predicates default an absent age to 0. -/
theorem claim_C7_absent_age_never_stale (name : String)
    (ch : Option (List FileNode)) (size : Option Nat)
    (carg : Option (List FileNode)) :
    detectFileCategory (FileNode.mk name NodeType.folder ch none size) carg
      = detectFileCategory (FileNode.mk name NodeType.folder ch (some 0) size) carg
    ∧ ∀ r, detectFileCategory (FileNode.mk name NodeType.folder ch none size) carg
        = some r →
      r.category ≠ Category.VACUUM_TEMP ∧ r.category ≠ Category.ARCHIVE_STALE := by
  have hpd : PROJECT_DETECTORS.find?
        (fun d => d.check (FileNode.mk name NodeType.folder ch none size) carg)
      = PROJECT_DETECTORS.find?
        (fun d => d.check (FileNode.mk name NodeType.folder ch (some 0) size) carg) := by
    refine find?_ext _ _ _ (fun d hd => ?_)
    simp only [PROJECT_DETECTORS, List.mem_cons, List.not_mem_nil, or_false] at hd
    rcases hd with rfl | rfl | rfl | rfl | rfl | rfl | rfl <;>
      simp [gitCheck, nodeCheck, pythonCheck, unityCheck, rustCheck, goCheck,
        javaCheck, FileNode.type]
  have hfr : FOLDER_RULES.find?
        (fun rl => rl.check (FileNode.mk name NodeType.folder ch none size))
      = FOLDER_RULES.find?
        (fun rl => rl.check (FileNode.mk name NodeType.folder ch (some 0) size)) := by
    refine find?_ext _ _ _ (fun rl hrl => ?_)
    simp only [FOLDER_RULES, List.mem_cons, List.not_mem_nil, or_false] at hrl
    rcases hrl with rfl | rfl | rfl | rfl | rfl <;>
      simp [emptyCheck, tempCheck, staleCheck, dotnetCheck, dotfileCheck,
        FileNode.type, FileNode.children, FileNode.age, FileNode.name]
  constructor
  · unfold detectFileCategory
    rw [hpd, hfr]
    rcases h2 : FOLDER_RULES.find?
        (fun rl => rl.check (FileNode.mk name NodeType.folder ch (some 0) size))
      with _ | rl
    · simp [FileNode.type, FileNode.name, h2]
    · have hmem := List.mem_of_find?_eq_some h2
      simp only [FOLDER_RULES, List.mem_cons, List.not_mem_nil, or_false] at hmem
      rcases hmem with rfl | rfl | rfl | rfl | rfl <;>
        simp [FileNode.type, h2, applyReason, staleReason, FileNode.age]
  · intro r h
    unfold detectFileCategory at h
    rcases hp : PROJECT_DETECTORS.find?
        (fun d => d.check (FileNode.mk name NodeType.folder ch none size) carg)
      with _ | d
    · rw [hp] at h
      simp only [FileNode.type, eq_self_iff_true, if_true] at h
      rcases hf : FOLDER_RULES.find?
          (fun rl => rl.check (FileNode.mk name NodeType.folder ch none size))
        with _ | rl
      · rw [hf] at h
        simp only [] at h
        rcases hn : NAME_PATTERNS.find?
            (fun p => regexTestI p.pattern
              (FileNode.mk name NodeType.folder ch none size).name)
          with _ | p
        · rw [hn] at h
          simp [FileNode.type] at h
        · rw [hn] at h
          simp only [Option.some.injEq] at h
          subst h
          have hmem := List.mem_of_find?_eq_some hn
          simp only [NAME_PATTERNS, List.mem_cons, List.not_mem_nil, or_false] at hmem
          rcases hmem with rfl | rfl | rfl | rfl | rfl | rfl | rfl | rfl | rfl
            | rfl | rfl | rfl <;> exact ⟨by simp [mkResult], by simp [mkResult]⟩
      · rw [hf] at h
        simp only [Option.some.injEq] at h
        subst h
        have hcheck := List.find?_some hf
        have hmem := List.mem_of_find?_eq_some hf
        simp only [FOLDER_RULES, List.mem_cons, List.not_mem_nil, or_false] at hmem
        rcases hmem with rfl | rfl | rfl | rfl | rfl
        · exact ⟨by simp [mkResult], by simp [mkResult]⟩
        · simp [tempCheck, FileNode.age] at hcheck
        · simp [staleCheck, FileNode.age] at hcheck
        · exact ⟨by simp [mkResult], by simp [mkResult]⟩
        · exact ⟨by simp [mkResult], by simp [mkResult]⟩
    · rw [hp] at h
      simp only [Option.some.injEq] at h
      subst h
      have hmem := List.mem_of_find?_eq_some hp
      simp only [PROJECT_DETECTORS, List.mem_cons, List.not_mem_nil, or_false] at hmem
      rcases hmem with rfl | rfl | rfl | rfl | rfl | rfl | rfl <;>
        exact ⟨by simp [mkResult], by simp [mkResult]⟩

/-- Helper: a name without a dot has no extension. -/
theorem lastDotSuffix_of_no_dot (l : List Char) (h : ('.' : Char) ∉ l) :
    lastDotSuffix l = none := by
  induction l with
  | nil => rfl
  | cons c t ih =>
    have hc : c ≠ '.' := fun hh => h (hh ▸ List.mem_cons_self c t)
    have ht := ih (fun hm => h (List.mem_cons_of_mem c hm))
    simp [lastDotSuffix, ht, beq_eq_false_iff_ne.mpr hc]

/-- Helper: for a FILE node on which no name pattern fires, classification
is exactly the extension-table lookup of the lowercased final-dot suffix. -/
theorem detect_file_ext_stage (name : String) (ch : Option (List FileNode))
    (a s : Option Nat) (carg : Option (List FileNode))
    (hnp : NAME_PATTERNS.find? (fun p => regexTestI p.pattern name) = none) :
    detectFileCategory (FileNode.mk name NodeType.file ch a s) carg
      = (extOf name).bind
          (fun ext => (EXTENSION_RULES (lowerStr ext)).map
            (fun er => mkResult er.category er.reason)) := by
  have hfind := file_noProject (FileNode.mk name NodeType.file ch a s) carg rfl
  unfold detectFileCategory
  rw [hfind]
  simp only [FileNode.type, FileNode.name]
  rw [hnp]
  rcases hext : extOf name with _ | ext
  · simp [hext]
  · rcases her : EXTENSION_RULES (lowerStr ext) with _ | er <;> simp [hext, her]

/-- C8: the extension stage runs only for FILE nodes after the name
patterns decline, looking up the lowercased substring from the final dot
("REPORT.PDF" matches the ".pdf" rule); a FILE name without a dot is never
classified by it, and a FOLDER node never reaches it. -/
theorem claim_C8_extension_stage_contract :
    (∀ (name : String) (ch : Option (List FileNode)) (a s : Option Nat)
       (carg : Option (List FileNode)),
      NAME_PATTERNS.find? (fun p => regexTestI p.pattern name) = none →
      detectFileCategory (FileNode.mk name NodeType.file ch a s) carg
        = (extOf name).bind
            (fun ext => (EXTENSION_RULES (lowerStr ext)).map
              (fun er => mkResult er.category er.reason)))
    ∧ detectFileCategory (FileNode.mk "REPORT.PDF" NodeType.file none none none) none
        = some ⟨Category.DOC_PDF, "03_Library/Documents", 5, "PDF Document"⟩
    ∧ (∀ (name : String) (ch : Option (List FileNode)) (a s : Option Nat)
        (carg : Option (List FileNode)),
       NAME_PATTERNS.find? (fun p => regexTestI p.pattern name) = none →
       ('.' : Char) ∉ name.data →
       detectFileCategory (FileNode.mk name NodeType.file ch a s) carg = none)
    ∧ detectFileCategory
        (FileNode.mk "report.pdf" NodeType.folder
          (some [FileNode.mk "x" NodeType.file none none none]) (some 50) none)
        (some [FileNode.mk "x" NodeType.file none none none])
      = none := by
  refine ⟨fun name ch a s carg hnp => detect_file_ext_stage name ch a s carg hnp,
    by decide, fun name ch a s carg hnp hdot => ?_, by decide⟩
  rw [detect_file_ext_stage name ch a s carg hnp]
  simp [extOf, lastDotSuffix_of_no_dot name.data hdot]

/-- C8 witness: conjuncts applied concretely — "Makefile" has no name
pattern and no dot, so it stays unclassified. -/
theorem claim_C8_extension_stage_contract_witness :
    detectFileCategory (FileNode.mk "Makefile" NodeType.file none none none) none
      = none :=
  claim_C8_extension_stage_contract.2.2.1 "Makefile" none none none none
    (by decide) (by decide)

/-- C9: the bottom-up size aggregation is idempotent: enriching an already
enriched tree changes nothing. -/
theorem claim_C9_enrich_idempotent (t : FileNode) :
    enrichWithSizes (enrichWithSizes t) = enrichWithSizes t :=
  enrich_node_stable t

/-- C10: name patterns are unanchored case-insensitive substring tests: a
node reaching the name-pattern stage whose name contains "tax" (even
inside a longer word) and neither "invoice" nor "receipt" is classified
financial, before any extension rule is consulted. -/
theorem claim_C10_tax_substring_financial (item : FileNode)
    (carg : Option (List FileNode))
    (hp : ∀ d ∈ PROJECT_DETECTORS, d.check item carg = false)
    (hfold : item.type = NodeType.folder → ∀ rl ∈ FOLDER_RULES, rl.check item = false)
    (htax : regexTestI "tax" item.name = true)
    (hinv : regexTestI "invoice" item.name = false)
    (hrec : regexTestI "receipt" item.name = false) :
    detectFileCategory item carg
      = some ⟨Category.PRIVATE_FINANCIAL, "04_Private/Financial", 9,
          "Tax Document"⟩ := by
  obtain ⟨n, t, ch, a, s⟩ := item
  simp only [FileNode.name, FileNode.type] at htax hinv hrec hfold
  have hfind := noProject_find _ _ hp
  unfold detectFileCategory
  rw [hfind]
  cases t with
  | file =>
    simp [FileNode.type, FileNode.name, NAME_PATTERNS, List.find?, htax, hinv, hrec,
      mkResult, FILE_CATEGORIES]
  | folder =>
    have hfr : FOLDER_RULES.find?
        (fun rl => rl.check (FileNode.mk n NodeType.folder ch a s)) = none :=
      List.find?_eq_none.mpr (fun rl hrl => by simp [hfold rfl rl hrl])
    have htype : (FileNode.mk n NodeType.folder ch a s).type = NodeType.folder := rfl
    rw [if_pos htype, hfr]
    simp [FileNode.type, FileNode.name, NAME_PATTERNS, List.find?, htax, hinv,
      hrec, mkResult, FILE_CATEGORIES]

/-- C10 witness: the file "syntax_overview.txt" — "tax" sits inside
"syntax" — is classified financial, not as a text file. -/
theorem claim_C10_tax_substring_financial_witness :
    detectFileCategory (FileNode.mk "syntax_overview.txt" NodeType.file none none none)
        none
      = some ⟨Category.PRIVATE_FINANCIAL, "04_Private/Financial", 9,
          "Tax Document"⟩ :=
  claim_C10_tax_substring_financial
    (FileNode.mk "syntax_overview.txt" NodeType.file none none none) none
    (by decide) (fun h => nomatch h) (by decide) (by decide) (by decide)
